import Mathlib

/-!
Shallow embedding of the GNote persistence layer (storage/postgres.go,
models/note.go) and verification of its specification.

Modelling conventions:
* The relational store is a record of tables held as lists in row-insertion
  order.  A SQL SELECT without an ORDER BY clause is modelled as returning
  rows in table (insertion) order; a SELECT with ORDER BY is modelled with an
  explicit sort.  Timestamps are naturals; the store-assigned "now" of a call
  is an explicit argument.
* Go slices are modelled as Option (List α): none is a nil slice, some l a
  non-nil slice holding l.  Appending to a nil slice yields a non-nil slice,
  as in Go.
* Store-level failures that the model cannot produce (connectivity loss,
  constraint violations) are out of scope; the Except results cover the
  outcomes the code computes itself (row-not-found detection).
* Each mutating operation additionally returns a trace of the statements it
  executed, in order, each tagged with the connection it ran on: txConn for
  the transaction handle (tx.Exec / tx.QueryRow) and dbConn for the plain
  handle (s.db.Query / s.db.Exec).  Physical file removals and log calls are
  traced as events too, so temporal claims about ordering relative to the
  transaction commit are statable.
* The filesystem is the list of paths of the files that exist; os.Remove
  succeeds exactly when the path exists.
-/

/-- Go slice: none models a nil slice, some l a non-nil slice with elements l. -/
abbrev GoSlice (α : Type) := Option (List α)

/-- Go nil slice, the zero value of a slice variable. -/
def goNil {α : Type} : GoSlice α := none

/-- Go append of one element: appending to a nil slice allocates, so the
result is always non-nil. -/
def goAppend {α : Type} (s : GoSlice α) (a : α) : GoSlice α :=
  some (s.getD [] ++ [a])

/-- The slice built by a Go scan loop that appends each row of l to a slice
variable starting at nil. -/
def goOfList {α : Type} (l : List α) : GoSlice α :=
  l.foldl goAppend goNil

/-- The elements a Go range loop visits on a slice: none for a nil slice. -/
def goToList {α : Type} (s : GoSlice α) : List α := s.getD []

/-- models.Attachment (models/note.go): one attachment record; the same shape
serves as the attachments table row. -/
structure Attachment where
  id : Nat
  noteId : Nat
  filename : String
  filepath : String
  mimeType : String
  sizeBytes : Nat
  uploadedAt : Nat
deriving DecidableEq

/-- models.Note (models/note.go): the in-memory note value the UI passes to
and receives from the store. -/
structure Note where
  id : Nat
  title : String
  content : String
  createdAt : Nat
  updatedAt : Nat
  reminderAt : Option Nat
  tags : GoSlice String
  attachments : GoSlice Attachment
deriving DecidableEq

/-- A row of the notes table. -/
structure NoteRow where
  id : Nat
  title : String
  content : String
  createdAt : Nat
  updatedAt : Nat
  reminderAt : Option Nat
deriving DecidableEq

/-- A row of the tags table (id, unique name). -/
structure TagRow where
  id : Nat
  name : String
deriving DecidableEq

/-- A row of the note_tags association table. -/
structure NoteTagRow where
  noteId : Nat
  tagId : Nat
deriving DecidableEq

/-- The relational store: the four tables in insertion order plus the serial
id counters the store uses to assign fresh primary keys. -/
structure DB where
  notes : List NoteRow
  tags : List TagRow
  noteTags : List NoteTagRow
  attachments : List Attachment
  nextNoteId : Nat
  nextTagId : Nat
  nextAttachmentId : Nat
deriving DecidableEq

/-- The filesystem: the list of paths at which a physical file exists. -/
abbrev FS := List String

/-- Which connection a statement ran on: the open transaction or the plain
database handle. -/
inductive Conn where
  | txConn
  | dbConn
deriving DecidableEq

/-- One traced effect of a store operation. -/
inductive Event where
  | beginTx
  | commitTx
  | rollbackTx
  | insertNoteEv (conn : Conn) (id : Nat)
  | upsertTagEv (conn : Conn) (name : String) (tagId : Nat)
  | insertNoteTagEv (conn : Conn) (noteId : Nat) (tagId : Nat)
  | deleteNoteTagsEv (conn : Conn) (noteId : Nat)
  | updateNoteRowEv (conn : Conn) (id : Nat) (rowsAffected : Nat)
  | deleteNoteRowEv (conn : Conn) (id : Nat) (rowsAffected : Nat)
  | selectAttachmentsEv (conn : Conn) (noteId : Nat)
  | selectAttachmentPathEv (conn : Conn) (id : Nat) (found : Bool)
  | insertAttachmentEv (conn : Conn) (id : Nat)
  | deleteAttachmentRowEv (conn : Conn) (id : Nat) (rowsAffected : Nat)
  | removeFileEv (path : String) (ok : Bool)
  | logRemoveFailureEv (path : String)
deriving DecidableEq

/-- Operation-level outcomes (spec section 7): row-not-found versus any other
store failure. -/
inductive StoreError where
  | notFound
  | persistence
deriving DecidableEq

/-- SQL INSERT INTO notes (title, content, reminder_at) VALUES .. RETURNING
id, created_at, updated_at: the store assigns the id from its serial counter
and both timestamps from the call time. -/
def insertNoteRow (db : DB) (now : Nat) (title content : String)
    (reminderAt : Option Nat) : NoteRow × DB :=
  let row : NoteRow :=
    { id := db.nextNoteId, title := title, content := content,
      createdAt := now, updatedAt := now, reminderAt := reminderAt }
  (row, { db with notes := db.notes ++ [row], nextNoteId := db.nextNoteId + 1 })

/-- SQL INSERT INTO tags (name) VALUES .. ON CONFLICT (name) DO UPDATE SET
name=EXCLUDED.name RETURNING id: reuse the id of the existing row with this
name, or append a fresh row. -/
def upsertTag (db : DB) (name : String) : Nat × DB :=
  match db.tags.find? (fun t => t.name == name) with
  | some t => (t.id, db)
  | none =>
    (db.nextTagId,
     { db with tags := db.tags ++ [{ id := db.nextTagId, name := name }],
               nextTagId := db.nextTagId + 1 })

/-- SQL INSERT INTO note_tags (note_id, tag_id) VALUES .. ON CONFLICT DO
NOTHING: append the association unless it is already present. -/
def insertNoteTag (db : DB) (noteId tagId : Nat) : DB :=
  if db.noteTags.any (fun nt => nt.noteId == noteId && nt.tagId == tagId) then db
  else { db with noteTags := db.noteTags ++ [{ noteId := noteId, tagId := tagId }] }

/-- The tag loop shared by CreateNote and UpdateNote: for each tag name in
order, upsert the tag by name and link it to the note. -/
def syncTags : DB → Nat → List String → DB × List Event
  | db, _, [] => (db, [])
  | db, noteId, name :: rest =>
    let p := upsertTag db name
    let db1 := insertNoteTag p.2 noteId p.1
    let q := syncTags db1 noteId rest
    (q.1, Event.upsertTagEv Conn.txConn name p.1 ::
          Event.insertNoteTagEv Conn.txConn noteId p.1 :: q.2)

/-- SQL DELETE FROM note_tags WHERE note_id = $1. -/
def deleteNoteTagLinks (db : DB) (noteId : Nat) : DB :=
  { db with noteTags := db.noteTags.filter (fun nt => !(nt.noteId == noteId)) }

/-- The row transform of SQL UPDATE notes SET title=$1, content=$2,
reminder_at=$3, updated_at=$4 WHERE id = $5: rows with a matching id get the
new attribute values, the creation timestamp is untouched. -/
def applyNoteUpdate (note : Note) (now : Nat) (r : NoteRow) : NoteRow :=
  if r.id == note.id then
    { r with title := note.title, content := note.content,
             reminderAt := note.reminderAt, updatedAt := now }
  else r

/-- SQL UPDATE on the notes table: the affected-row count and the new table. -/
def updateNoteRow (db : DB) (note : Note) (now : Nat) : Nat × DB :=
  (db.notes.countP (fun r => r.id == note.id),
   { db with notes := db.notes.map (applyNoteUpdate note now) })

/-- SQL DELETE FROM notes WHERE id = $1: affected-row count and new table. -/
def deleteNoteRow (db : DB) (id : Nat) : Nat × DB :=
  (db.notes.countP (fun r => r.id == id),
   { db with notes := db.notes.filter (fun r => !(r.id == id)) })

/-- SQL SELECT .. FROM notes WHERE id = $1 (first matching row, if any). -/
def selectNoteRow (db : DB) (id : Nat) : Option NoteRow :=
  db.notes.find? (fun r => r.id == id)

/-- Tag-name lookup half of the join tags JOIN note_tags ON t.id = nt.tag_id:
the name of the first tags row with the given id. -/
def tagNameOfId (db : DB) (tagId : Nat) : Option String :=
  (db.tags.find? (fun t => t.id == tagId)).map (fun t => t.name)

/-- SQL SELECT t.name FROM tags t JOIN note_tags nt ON t.id = nt.tag_id WHERE
nt.note_id = $1 — no ORDER BY, so rows come back in association insertion
order. -/
def selectTagNames (db : DB) (noteId : Nat) : List String :=
  (db.noteTags.filter (fun nt => nt.noteId == noteId)).filterMap
    (fun nt => tagNameOfId db nt.tagId)

/-- Upload-time ordering used by ORDER BY uploaded_at ASC. -/
def attLe (a b : Attachment) : Prop := a.uploadedAt ≤ b.uploadedAt

instance : DecidableRel attLe := fun a b => Nat.decLe a.uploadedAt b.uploadedAt

/-- SQL SELECT .. FROM attachments WHERE note_id = $1 ORDER BY uploaded_at
ASC. -/
def selectAttachmentRows (db : DB) (noteId : Nat) : List Attachment :=
  List.insertionSort attLe (db.attachments.filter (fun a => a.noteId == noteId))

/-- Codepoint ordering on strings, the model of the column collation behind
ORDER BY t.name. -/
def lexLe : List Char → List Char → Bool
  | [], _ => true
  | _ :: _, [] => false
  | a :: s, b :: t =>
    if a.val.toNat < b.val.toNat then true
    else if b.val.toNat < a.val.toNat then false
    else lexLe s t

/-- String ordering lifted from lexLe. -/
def strLe (a b : String) : Prop := lexLe a.data b.data = true

instance : DecidableRel strLe := fun a b => instDecidableEqBool (lexLe a.data b.data) true

/-- Alphabetical sort of tag names, the model of ARRAY_AGG(t.name ORDER BY
t.name). -/
def sortStrings (l : List String) : List String :=
  List.insertionSort strLe l

/-- Creation-time-descending ordering used by ORDER BY n.created_at DESC. -/
def rowLater (a b : NoteRow) : Prop := b.createdAt ≤ a.createdAt

instance : DecidableRel rowLater := fun a b => Nat.decLe b.createdAt a.createdAt

instance : IsTotal NoteRow rowLater :=
  ⟨fun a b => Or.symm (Nat.le_total a.createdAt b.createdAt)⟩

instance : IsTrans NoteRow rowLater :=
  ⟨fun _ _ _ h1 h2 => Nat.le_trans h2 h1⟩

/-- os.Remove over a list of paths, as run by the cleanup loop in DeleteNote:
every path is attempted in order; a failed removal is logged and the loop
continues. -/
def removeFiles : FS → List String → FS × List Event
  | fs, [] => (fs, [])
  | fs, p :: ps =>
    if p ∈ fs then
      let q := removeFiles (fs.erase p) ps
      (q.1, Event.removeFileEv p true :: q.2)
    else
      let q := removeFiles fs ps
      (q.1, Event.removeFileEv p false :: Event.logRemoveFailureEv p :: q.2)

/-- CreateNote (storage/postgres.go): in one transaction, insert the note row
(store assigns id and both timestamps, written back into the argument), then
upsert and link each tag name.  In the model no statement can fail, so the
transaction always commits. -/
def CreateNote (db : DB) (now : Nat) (note : Note) : Note × DB :=
  let p := insertNoteRow db now note.title note.content note.reminderAt
  let note1 := { note with id := p.1.id, createdAt := p.1.createdAt,
                           updatedAt := p.1.updatedAt }
  let q := syncTags p.2 note1.id (goToList note.tags)
  (note1, q.1)

/-- GetAttachmentsByNoteID (storage/postgres.go): all attachment rows for the
note id, uploaded_at ascending, scanned into a slice that starts nil.  There
is no check that the owning note exists; only store-level failures (out of
model) could yield an error. -/
def GetAttachmentsByNoteID (db : DB) (noteId : Nat) :
    Except StoreError (GoSlice Attachment) :=
  Except.ok (goOfList (selectAttachmentRows db noteId))

/-- GetNoteByID (storage/postgres.go): select the note row (not-found is a
distinct outcome), scan its tag names (join without ORDER BY) into a slice
starting nil, then fetch its attachments via GetAttachmentsByNoteID. -/
def GetNoteByID (db : DB) (id : Nat) : Except StoreError Note :=
  match selectNoteRow db id with
  | none => Except.error StoreError.notFound
  | some r =>
    match GetAttachmentsByNoteID db r.id with
    | Except.error e => Except.error e
    | Except.ok atts =>
      Except.ok
        { id := r.id, title := r.title, content := r.content,
          createdAt := r.createdAt, updatedAt := r.updatedAt,
          reminderAt := r.reminderAt,
          tags := goOfList (selectTagNames db r.id),
          attachments := atts }

/-- GetAllNotes (storage/postgres.go): every note, created_at descending,
tags aggregated alphabetically with COALESCE('{}') so an untagged note gets
an empty (non-nil) array; attachments are set to an empty literal slice,
never fetched. -/
def GetAllNotes (db : DB) : List Note :=
  (List.insertionSort rowLater db.notes).map (fun r =>
    { id := r.id, title := r.title, content := r.content,
      createdAt := r.createdAt, updatedAt := r.updatedAt,
      reminderAt := r.reminderAt,
      tags := some (sortStrings (selectTagNames db r.id)),
      attachments := some [] })

/-- Decidable equality for Except results, used to evaluate concrete
outcomes. -/
instance {ε α : Type} [DecidableEq ε] [DecidableEq α] :
    DecidableEq (Except ε α) := fun a b =>
  match a, b with
  | Except.error e, Except.error f =>
    if h : e = f then isTrue (by rw [h])
    else isFalse (fun hc => h (by injection hc))
  | Except.error _, Except.ok _ => isFalse (fun hc => by injection hc)
  | Except.ok _, Except.error _ => isFalse (fun hc => by injection hc)
  | Except.ok x, Except.ok y =>
    if h : x = y then isTrue (by rw [h])
    else isFalse (fun hc => h (by injection hc))

/-- Result of UpdateNote: the operation outcome, the (mutated) argument note,
the store afterward, and the statement trace. -/
structure UpdateOut where
  res : Except StoreError Unit
  note : Note
  db : DB
  trace : List Event
deriving DecidableEq

/-- UpdateNote (storage/postgres.go): in one transaction, first overwrite the
argument's UpdatedAt with the call time, then UPDATE the note row; zero rows
affected aborts with not-found (and the deferred rollback discards nothing,
as nothing was changed); otherwise delete every tag association of the note
and re-link the requested tag set through the same upsert path as CreateNote,
then commit. -/
def UpdateNote (db : DB) (now : Nat) (note : Note) : UpdateOut :=
  let note1 := { note with updatedAt := now }
  let p := updateNoteRow db note1 now
  if p.1 == 0 then
    { res := Except.error StoreError.notFound, note := note1, db := db,
      trace := [Event.beginTx, Event.updateNoteRowEv Conn.txConn note1.id 0,
                Event.rollbackTx] }
  else
    let db1 := deleteNoteTagLinks p.2 note1.id
    let q := syncTags db1 note1.id (goToList note1.tags)
    { res := Except.ok (), note := note1, db := q.1,
      trace := [Event.beginTx, Event.updateNoteRowEv Conn.txConn note1.id p.1,
                Event.deleteNoteTagsEv Conn.txConn note1.id] ++ q.2 ++
               [Event.commitTx] }

/-- Result of DeleteNote / DeleteAttachment: outcome, store, filesystem and
statement trace. -/
structure DeleteOut where
  res : Except StoreError Unit
  db : DB
  fs : FS
  trace : List Event
deriving DecidableEq

/-- DeleteNote (storage/postgres.go): begin a transaction; enumerate the
note's attachments THROUGH THE PLAIN s.db HANDLE (GetAttachmentsByNoteID does
not take the transaction); inside the transaction delete the tag associations
and then the note row; zero rows affected aborts with not-found and the
deferred rollback leaves the store unchanged; otherwise remove each
attachment's physical file (logging failures, never aborting) and only then
commit. -/
def DeleteNote (db : DB) (fs : FS) (id : Nat) : DeleteOut :=
  let atts := goToList ((GetAttachmentsByNoteID db id).toOption.getD goNil)
  let db1 := deleteNoteTagLinks db id
  let p := deleteNoteRow db1 id
  if p.1 == 0 then
    { res := Except.error StoreError.notFound, db := db, fs := fs,
      trace := [Event.beginTx, Event.selectAttachmentsEv Conn.dbConn id,
                Event.deleteNoteTagsEv Conn.txConn id,
                Event.deleteNoteRowEv Conn.txConn id 0, Event.rollbackTx] }
  else
    let q := removeFiles fs (atts.map (fun a => a.filepath))
    { res := Except.ok (), db := p.2, fs := q.1,
      trace := [Event.beginTx, Event.selectAttachmentsEv Conn.dbConn id,
                Event.deleteNoteTagsEv Conn.txConn id,
                Event.deleteNoteRowEv Conn.txConn id p.1] ++ q.2 ++
               [Event.commitTx] }

/-- CreateAttachment (storage/postgres.go): single INSERT, no transaction;
the store assigns the id and the upload timestamp and both are written back
into the argument. -/
def CreateAttachment (db : DB) (now : Nat) (att : Attachment) :
    Attachment × DB :=
  let att1 := { att with id := db.nextAttachmentId, uploadedAt := now }
  (att1, { db with attachments := db.attachments ++ [att1],
                   nextAttachmentId := db.nextAttachmentId + 1 })

/-- DeleteAttachment (storage/postgres.go): look up the stored path (no row
is a not-found), DELETE the metadata row (zero rows affected would also be a
not-found), and only after that attempt the physical removal, logging a
failure but still returning success. -/
def DeleteAttachment (db : DB) (fs : FS) (attachmentId : Nat) : DeleteOut :=
  match db.attachments.find? (fun a => a.id == attachmentId) with
  | none =>
    { res := Except.error StoreError.notFound, db := db, fs := fs,
      trace := [Event.selectAttachmentPathEv Conn.dbConn attachmentId false] }
  | some a =>
    let k := db.attachments.countP (fun x => x.id == attachmentId)
    let db1 := { db with
                 attachments := db.attachments.filter
                   (fun x => !(x.id == attachmentId)) }
    if k == 0 then
      { res := Except.error StoreError.notFound, db := db1, fs := fs,
        trace := [Event.selectAttachmentPathEv Conn.dbConn attachmentId true,
                  Event.deleteAttachmentRowEv Conn.dbConn attachmentId 0] }
    else
      let q := removeFiles fs [a.filepath]
      { res := Except.ok (), db := db1, fs := q.1,
        trace := [Event.selectAttachmentPathEv Conn.dbConn attachmentId true,
                  Event.deleteAttachmentRowEv Conn.dbConn attachmentId k] ++
                 q.2 }

/-- Deduplication keeping first occurrences, relative to an already-seen
list; this is the association set the upsert-and-link loop builds. -/
def dedupNew (seen : List String) : List String → List String
  | [] => []
  | t :: ts => if t ∈ seen then dedupNew seen ts else t :: dedupNew (seen ++ [t]) ts

/-- Deduplication of a tag list keeping first occurrences. -/
def dedupFirst (l : List String) : List String := dedupNew [] l

/-- Modelled from the spec: the tag list the spec says a read-back returns,
sorted(dedup(T)) — alphabetical order over the deduplicated tag set. -/
def specSortedDedup (T : List String) : List String := sortStrings T.dedup

/-- Modelled from the spec: physical-file removals happen only after the
transaction commits, i.e. no removeFileEv occurs in the trace before the
first commitTx. -/
def noRemovalBeforeCommit : List Event → Bool
  | [] => true
  | Event.commitTx :: _ => true
  | Event.removeFileEv _ _ :: _ => false
  | _ :: rest => noRemovalBeforeCommit rest

/-- Modelled from the spec: the attachment enumeration of a delete runs on
the transaction connection. -/
def attachmentEnumOnTx : List Event → Bool
  | [] => true
  | Event.selectAttachmentsEv c _ :: rest =>
    (match c with | Conn.txConn => true | Conn.dbConn => false) &&
      attachmentEnumOnTx rest
  | _ :: rest => attachmentEnumOnTx rest

/-- The store with all four tables empty and serial counters at 1. -/
def emptyDB : DB :=
  { notes := [], tags := [], noteTags := [], attachments := [],
    nextNoteId := 1, nextTagId := 1, nextAttachmentId := 1 }

/-- A sample note value to create, with tags in non-alphabetical order. -/
def exNoteBA : Note :=
  { id := 0, title := "Groceries", content := "milk, eggs", createdAt := 0,
    updatedAt := 0, reminderAt := none, tags := some ["b", "a"],
    attachments := none }

/-- A store holding exactly one note (id 1) with one tag and one attachment
whose physical file is at path f1. -/
def dbOneNote : DB :=
  { notes := [{ id := 1, title := "t", content := "c", createdAt := 3,
                updatedAt := 3, reminderAt := none }],
    tags := [{ id := 1, name := "a" }],
    noteTags := [{ noteId := 1, tagId := 1 }],
    attachments := [{ id := 1, noteId := 1, filename := "list.txt",
                      filepath := "f1", mimeType := "text/plain",
                      sizeBytes := 42, uploadedAt := 4 }],
    nextNoteId := 2, nextTagId := 2, nextAttachmentId := 2 }

/-- A store holding one note (id 1) with two attachments at paths f1, f2. -/
def dbTwoAtts : DB :=
  { notes := [{ id := 1, title := "t", content := "c", createdAt := 3,
                updatedAt := 3, reminderAt := none }],
    tags := [],
    noteTags := [],
    attachments := [{ id := 1, noteId := 1, filename := "x", filepath := "f1",
                      mimeType := "m", sizeBytes := 1, uploadedAt := 4 },
                    { id := 2, noteId := 1, filename := "y", filepath := "f2",
                      mimeType := "m", sizeBytes := 2, uploadedAt := 5 }],
    nextNoteId := 2, nextTagId := 1, nextAttachmentId := 3 }

/-- The path a trace event removed (or tried to), if it is a removal event. -/
def evRemovedPath : Event → Option String
  | Event.removeFileEv p _ => some p
  | _ => none

/-- The tag slice of a read result, nil when the read failed. -/
def tagsOfRead : Except StoreError Note → GoSlice String
  | Except.ok m => m.tags
  | Except.error _ => goNil

/-- Basic health of the tags table: every id below the serial counter and no
two rows sharing an id. -/
def tagsOk (db : DB) : Prop :=
  (∀ t ∈ db.tags, t.id < db.nextTagId) ∧ (db.tags.map TagRow.id).Nodup

/-- A tag id is canonical when the row found by that id is also the first row
carrying its name — i.e. the id the upsert-by-name would return for it. -/
def canonTagId (db : DB) (i : Nat) : Prop :=
  ∃ r, db.tags.find? (fun t => t.id == i) = some r ∧
       db.tags.find? (fun t => t.name == r.name) = some r

/-- Every association of the note points at a canonical tag id; this is what
the upsert-and-link loop establishes and maintains. -/
def assocsCanon (db : DB) (n : Nat) : Prop :=
  ∀ nt ∈ db.noteTags, nt.noteId = n → canonTagId db nt.tagId

/-- An update request against dbOneNote: retag note 1 with urgent only. -/
def updReq : Note :=
  { id := 1, title := "t2", content := "c2", createdAt := 0, updatedAt := 0,
    reminderAt := none, tags := some ["urgent"], attachments := none }

/-- A scan loop over a nonempty row list produces the non-nil slice of
exactly those rows. -/
theorem foldl_goAppend_some {α : Type} (l : List α) :
    ∀ acc : List α, l.foldl goAppend (some acc) = some (acc ++ l) := by
  induction l with
  | nil => intro acc; simp [List.foldl]
  | cons a t ih =>
    intro acc
    simp only [List.foldl, goAppend, Option.getD_some]
    rw [ih (acc ++ [a])]
    simp

/-- Characterisation of the scan loop: nil for no rows, non-nil otherwise. -/
theorem goOfList_eq {α : Type} (l : List α) :
    goOfList l = match l with | [] => none | a :: t => some (a :: t) := by
  cases l with
  | nil => rfl
  | cons a t =>
    show (a :: t).foldl goAppend goNil = some (a :: t)
    simp only [List.foldl, goNil, goAppend, Option.getD_none, List.nil_append]
    rw [foldl_goAppend_some]
    rfl

/-- Iterating the scanned slice visits exactly the scanned rows. -/
theorem goToList_goOfList {α : Type} (l : List α) : goToList (goOfList l) = l := by
  rw [goOfList_eq]
  cases l <;> rfl

/-- The removal loop attempts every path, in order, whatever the filesystem
state is: the removal events of its trace list exactly the input paths. -/
theorem removeFiles_attempts (ps : List String) :
    ∀ fs : FS, ((removeFiles fs ps).2.filterMap evRemovedPath) = ps := by
  induction ps with
  | nil => intro fs; rfl
  | cons p t ih =>
    intro fs
    by_cases h : p ∈ fs
    · simp only [removeFiles, if_pos h, List.filterMap_cons, evRemovedPath]
      rw [ih]
    · simp only [removeFiles, if_neg h, List.filterMap_cons, evRemovedPath]
      rw [ih]

/-- A membership of dedupNew: an element of the suffix not yet seen. -/
theorem mem_dedupNew (s : String) (T : List String) :
    ∀ seen : List String, s ∈ dedupNew seen T ↔ s ∈ T ∧ s ∉ seen := by
  induction T with
  | nil => intro seen; simp [dedupNew]
  | cons t ts ih =>
    intro seen
    by_cases h : t ∈ seen
    · simp only [dedupNew, if_pos h, ih]
      constructor
      · rintro ⟨hs, hns⟩
        exact ⟨List.mem_cons_of_mem _ hs, hns⟩
      · rintro ⟨hs, hns⟩
        rcases List.mem_cons.mp hs with rfl | hs2
        · exact absurd h hns
        · exact ⟨hs2, hns⟩
    · rw [dedupNew, if_neg h]
      constructor
      · intro hc
        rcases List.mem_cons.mp hc with rfl | hc2
        · exact ⟨List.mem_cons_self _ _, h⟩
        · rcases (ih (seen ++ [t])).mp hc2 with ⟨hs, hns⟩
          exact ⟨List.mem_cons_of_mem _ hs,
                 fun hm => hns (List.mem_append.mpr (Or.inl hm))⟩
      · rintro ⟨hs, hns⟩
        rcases List.mem_cons.mp hs with rfl | hs2
        · exact List.mem_cons_self _ _
        · by_cases he : s = t
          · exact he ▸ List.mem_cons_self _ _
          · refine List.mem_cons_of_mem _ ((ih (seen ++ [t])).mpr ⟨hs2, ?_⟩)
            intro hm
            rcases List.mem_append.mp hm with h1 | h2
            · exact hns h1
            · exact he (List.mem_singleton.mp h2)

/-- dedupNew never repeats an element. -/
theorem dedupNew_nodup (T : List String) :
    ∀ seen : List String, (dedupNew seen T).Nodup := by
  induction T with
  | nil => intro seen; simp [dedupNew]
  | cons t ts ih =>
    intro seen
    by_cases h : t ∈ seen
    · simpa [dedupNew, if_pos h] using ih seen
    · simp only [dedupNew, if_neg h, List.nodup_cons]
      refine ⟨fun hc => ?_, ih (seen ++ [t])⟩
      rcases (mem_dedupNew t ts (seen ++ [t])).mp hc with ⟨_, hns⟩
      exact hns (List.mem_append.mpr (Or.inr (List.mem_singleton.mpr rfl)))

/-- Membership in the first-occurrence deduplication. -/
theorem mem_dedupFirst (s : String) (T : List String) :
    s ∈ dedupFirst T ↔ s ∈ T := by
  rw [dedupFirst, mem_dedupNew]
  simp

/-- The attachment enumeration inside DeleteNote reads exactly the attachment
rows of the note. -/
theorem deleteNote_atts_eq (db : DB) (id : Nat) :
    goToList ((GetAttachmentsByNoteID db id).toOption.getD goNil)
      = selectAttachmentRows db id := by
  simp [GetAttachmentsByNoteID, Except.toOption, goToList_goOfList]

/-- Closed form of a DeleteNote whose note row exists: the note and its tag
associations are removed, every attachment path is fed to the removal loop,
and the removal events sit after the row delete and before the commit. -/
theorem DeleteNote_found_eq (db : DB) (fs : FS) (id : Nat)
    (h : db.notes.countP (fun r => r.id == id) ≠ 0) :
    DeleteNote db fs id =
      { res := Except.ok (),
        db := { db with
                notes := db.notes.filter (fun r => !(r.id == id)),
                noteTags := db.noteTags.filter (fun nt => !(nt.noteId == id)) },
        fs := (removeFiles fs
                ((selectAttachmentRows db id).map (fun a => a.filepath))).1,
        trace := [Event.beginTx, Event.selectAttachmentsEv Conn.dbConn id,
                  Event.deleteNoteTagsEv Conn.txConn id,
                  Event.deleteNoteRowEv Conn.txConn id
                    (db.notes.countP (fun r => r.id == id))] ++
                 (removeFiles fs
                   ((selectAttachmentRows db id).map (fun a => a.filepath))).2 ++
                 [Event.commitTx] } := by
  have hc : (db.notes.countP (fun r => r.id == id) == 0) = false :=
    beq_eq_false_iff_ne.mpr h
  simp [DeleteNote, deleteNoteTagLinks, deleteNoteRow, deleteNote_atts_eq, hc]

/-- Closed form of a DeleteNote whose note row does not exist: not-found, the
store and filesystem untouched, rollback instead of commit, and no removal
event at all. -/
theorem DeleteNote_notFound_eq (db : DB) (fs : FS) (id : Nat)
    (h : ∀ r ∈ db.notes, r.id ≠ id) :
    DeleteNote db fs id =
      { res := Except.error StoreError.notFound, db := db, fs := fs,
        trace := [Event.beginTx, Event.selectAttachmentsEv Conn.dbConn id,
                  Event.deleteNoteTagsEv Conn.txConn id,
                  Event.deleteNoteRowEv Conn.txConn id 0, Event.rollbackTx] } := by
  have hc : db.notes.countP (fun r => r.id == id) = 0 :=
    List.countP_eq_zero.mpr (fun r hr => by simpa using h r hr)
  simp [DeleteNote, deleteNoteTagLinks, deleteNoteRow, hc]

/-- Closed form of an UpdateNote whose note row does not exist: the argument
still gets its update timestamp overwritten, the store is untouched, and the
only statement before the rollback is the UPDATE that affected zero rows. -/
theorem UpdateNote_notFound_eq (db : DB) (now : Nat) (note : Note)
    (h : ∀ r ∈ db.notes, r.id ≠ note.id) :
    UpdateNote db now note =
      { res := Except.error StoreError.notFound,
        note := { note with updatedAt := now }, db := db,
        trace := [Event.beginTx, Event.updateNoteRowEv Conn.txConn note.id 0,
                  Event.rollbackTx] } := by
  have hc : db.notes.countP (fun r => r.id == note.id) = 0 :=
    List.countP_eq_zero.mpr (fun r hr => by simpa using h r hr)
  simp [UpdateNote, updateNoteRow, hc]

/-- The tag loop never touches the notes or attachments tables or the note
serial, and runs on the transaction connection only. -/
theorem syncTags_frame (T : List String) : ∀ (db : DB) (n : Nat),
    (syncTags db n T).1.notes = db.notes ∧
    (syncTags db n T).1.attachments = db.attachments ∧
    (syncTags db n T).1.nextNoteId = db.nextNoteId := by
  induction T with
  | nil => intro db n; exact ⟨rfl, rfl, rfl⟩
  | cons s rest ih =>
    intro db n
    show (syncTags (insertNoteTag (upsertTag db s).2 n (upsertTag db s).1) n rest).1.notes = _ ∧ _
    have h1 : (insertNoteTag (upsertTag db s).2 n (upsertTag db s).1).notes = db.notes ∧
        (insertNoteTag (upsertTag db s).2 n (upsertTag db s).1).attachments = db.attachments ∧
        (insertNoteTag (upsertTag db s).2 n (upsertTag db s).1).nextNoteId = db.nextNoteId := by
      unfold upsertTag insertNoteTag
      cases db.tags.find? (fun t => t.name == s) <;>
        dsimp <;> split <;> exact ⟨rfl, rfl, rfl⟩
    rcases ih (insertNoteTag (upsertTag db s).2 n (upsertTag db s).1) n with ⟨i1, i2, i3⟩
    rcases h1 with ⟨a1, a2, a3⟩
    exact ⟨i1.trans a1, i2.trans a2, i3.trans a3⟩

/-- Field projections of a successful UpdateNote: ok result, the argument
mutated exactly in its update timestamp, and the notes table mapped through
the UPDATE row transform carrying the caller-side timestamp. -/
theorem UpdateNote_found_fields (db : DB) (now : Nat) (note : Note)
    (h : db.notes.countP (fun r => r.id == note.id) ≠ 0) :
    (UpdateNote db now note).res = Except.ok () ∧
    (UpdateNote db now note).note = { note with updatedAt := now } ∧
    (UpdateNote db now note).db.notes
      = db.notes.map (applyNoteUpdate { note with updatedAt := now } now) ∧
    (UpdateNote db now note).db
      = (syncTags (deleteNoteTagLinks (updateNoteRow db { note with updatedAt := now } now).2 note.id)
          note.id (goToList note.tags)).1 := by
  have hc : (db.notes.countP (fun r => r.id == note.id) == 0) = false :=
    beq_eq_false_iff_ne.mpr h
  refine ⟨?_, ?_, ?_, ?_⟩
  · simp [UpdateNote, updateNoteRow, hc]
  · simp [UpdateNote, updateNoteRow, hc]
  · have hdb : (UpdateNote db now note).db
        = (syncTags (deleteNoteTagLinks (updateNoteRow db { note with updatedAt := now } now).2 note.id)
            note.id (goToList note.tags)).1 := by
      simp [UpdateNote, updateNoteRow, hc]
    rw [hdb, (syncTags_frame _ _ _).1]
    simp [deleteNoteTagLinks, updateNoteRow]
  · simp [UpdateNote, updateNoteRow, hc]

/-- C5: UpdateNote on a note id absent from the store fails with
NotFoundError, detected by the UPDATE affecting zero rows (the trace shows no
existence-check query, only the UPDATE, then rollback), and leaves the store
completely unchanged: no note row, tag row or tag association is created,
modified or deleted. -/
theorem gnote_c5 (db : DB) (now : Nat) (note : Note)
    (h : ∀ r ∈ db.notes, r.id ≠ note.id) :
    UpdateNote db now note =
      { res := Except.error StoreError.notFound,
        note := { note with updatedAt := now }, db := db,
        trace := [Event.beginTx, Event.updateNoteRowEv Conn.txConn note.id 0,
                  Event.rollbackTx] } :=
  UpdateNote_notFound_eq db now note h

/-- C5 witness at a concrete store: updating id 7, which dbOneNote does not
hold, is a not-found no-op. -/
theorem gnote_c5_witness :
    UpdateNote dbOneNote 9 { updReq with id := 7 } =
      { res := Except.error StoreError.notFound,
        note := { updReq with id := 7, updatedAt := 9 }, db := dbOneNote,
        trace := [Event.beginTx, Event.updateNoteRowEv Conn.txConn 7 0,
                  Event.rollbackTx] } :=
  gnote_c5 dbOneNote 9 { updReq with id := 7 } (by decide)

/-- C9: fetching attachments for a note id that has no attachment rows (for
example a deleted or never-existing note) yields no error and an empty
collection — the function runs no owning-note existence check at all. -/
theorem gnote_c9 (db : DB) (noteId : Nat)
    (h : ∀ a ∈ db.attachments, a.noteId ≠ noteId) :
    ∃ v, GetAttachmentsByNoteID db noteId = Except.ok v ∧ goToList v = [] := by
  have hf : db.attachments.filter (fun a => a.noteId == noteId) = [] :=
    List.filter_eq_nil_iff.mpr (fun a ha => by simpa using h a ha)
  refine ⟨goOfList (selectAttachmentRows db noteId), rfl, ?_⟩
  rw [goToList_goOfList, selectAttachmentRows, hf]
  rfl

/-- C9 witness: note id 99 has no attachments in dbOneNote. -/
theorem gnote_c9_witness :
    ∃ v, GetAttachmentsByNoteID dbOneNote 99 = Except.ok v ∧ goToList v = [] :=
  gnote_c9 dbOneNote 99 (by decide)

/-- C7: a successful DeleteNote attempts removal of every one of the note's
attachment files — for every filesystem state, including states where some
removals fail, the removal events of the trace list exactly the attachment
paths, so one failure never prevents the remaining attempts. -/
theorem gnote_c7 (db : DB) (fs : FS) (id : Nat)
    (h : db.notes.countP (fun r => r.id == id) ≠ 0) :
    (DeleteNote db fs id).res = Except.ok () ∧
    (DeleteNote db fs id).trace.filterMap evRemovedPath
      = (selectAttachmentRows db id).map (fun a => a.filepath) := by
  rw [DeleteNote_found_eq db fs id h]
  refine ⟨rfl, ?_⟩
  simp only [List.filterMap_append, removeFiles_attempts]
  simp [evRemovedPath]

/-- C7 witness: deleting note 1 of dbTwoAtts on a filesystem where f1 is
already missing still attempts both f1 and f2. -/
theorem gnote_c7_witness :
    (DeleteNote dbTwoAtts ["f2"] 1).res = Except.ok () ∧
    (DeleteNote dbTwoAtts ["f2"] 1).trace.filterMap evRemovedPath
      = (selectAttachmentRows dbTwoAtts 1).map (fun a => a.filepath) :=
  gnote_c7 dbTwoAtts ["f2"] 1 (by decide)

/-- C8: DeleteAttachment on an absent id is a not-found no-op (store and
filesystem untouched); on a present id it deletes the metadata row, succeeds,
and only after the row delete does the trace show the physical removal
attempt, whose failure does not change the successful outcome (the result is
ok for every filesystem state). -/
theorem gnote_c8 (db : DB) (fs : FS) (a : Attachment) (otherId : Nat)
    (h1 : db.attachments.find? (fun x => x.id == a.id) = some a)
    (h2 : ∀ x ∈ db.attachments, x.id ≠ otherId) :
    DeleteAttachment db fs otherId =
      { res := Except.error StoreError.notFound, db := db, fs := fs,
        trace := [Event.selectAttachmentPathEv Conn.dbConn otherId false] } ∧
    (DeleteAttachment db fs a.id).res = Except.ok () ∧
    (DeleteAttachment db fs a.id).db.attachments
      = db.attachments.filter (fun x => !(x.id == a.id)) ∧
    (DeleteAttachment db fs a.id).trace
      = [Event.selectAttachmentPathEv Conn.dbConn a.id true,
         Event.deleteAttachmentRowEv Conn.dbConn a.id
           (db.attachments.countP (fun x => x.id == a.id))] ++
        (removeFiles fs [a.filepath]).2 := by
  have hnone : db.attachments.find? (fun x => x.id == otherId) = none :=
    List.find?_eq_none.mpr (fun x hx => by simpa using h2 x hx)
  have hk : db.attachments.countP (fun x => x.id == a.id) ≠ 0 := by
    intro hzero
    have := List.countP_eq_zero.mp hzero a (List.mem_of_find?_eq_some h1)
    simp at this
  have hkb : (db.attachments.countP (fun x => x.id == a.id) == 0) = false :=
    beq_eq_false_iff_ne.mpr hk
  refine ⟨?_, ?_, ?_, ?_⟩
  · simp [DeleteAttachment, hnone]
  · simp [DeleteAttachment, h1, hkb]
  · simp [DeleteAttachment, h1, hkb]
  · simp [DeleteAttachment, h1, hkb]

/-- C8 witness at dbOneNote: id 99 is absent, the stored attachment (id 1,
path f1) is present; removal is attempted on an empty filesystem where it
fails, and the delete still succeeds. -/
theorem gnote_c8_witness :
    DeleteAttachment dbOneNote [] 99 =
      { res := Except.error StoreError.notFound, db := dbOneNote, fs := [],
        trace := [Event.selectAttachmentPathEv Conn.dbConn 99 false] } ∧
    (DeleteAttachment dbOneNote [] 1).res = Except.ok () ∧
    (DeleteAttachment dbOneNote [] 1).db.attachments
      = dbOneNote.attachments.filter (fun x => !(x.id == 1)) ∧
    (DeleteAttachment dbOneNote [] 1).trace
      = [Event.selectAttachmentPathEv Conn.dbConn 1 true,
         Event.deleteAttachmentRowEv Conn.dbConn 1
           (dbOneNote.attachments.countP (fun x => x.id == 1))] ++
        (removeFiles [] ["f1"]).2 :=
  gnote_c8 dbOneNote []
    { id := 1, noteId := 1, filename := "list.txt", filepath := "f1",
      mimeType := "text/plain", sizeBytes := 42, uploadedAt := 4 }
    99 (by decide) (by decide)

/-- C10: UpdateNote overwrites the caller's note object in its UpdatedAt
field with the call time — and in no other field — even when the target id is
absent and the call fails with NotFoundError leaving the store unchanged; on
success the notes table is rewritten through the UPDATE transform that writes
exactly this caller-side timestamp (not a store-assigned one) into the
matched row. -/
theorem gnote_c10 (dbA dbB : DB) (now : Nat) (noteA noteB : Note)
    (hA : ∀ r ∈ dbA.notes, r.id ≠ noteA.id)
    (hB : dbB.notes.countP (fun r => r.id == noteB.id) ≠ 0) :
    (UpdateNote dbA now noteA).note = { noteA with updatedAt := now } ∧
    (UpdateNote dbA now noteA).res = Except.error StoreError.notFound ∧
    (UpdateNote dbA now noteA).db = dbA ∧
    (UpdateNote dbB now noteB).note = { noteB with updatedAt := now } ∧
    (UpdateNote dbB now noteB).res = Except.ok () ∧
    (UpdateNote dbB now noteB).db.notes
      = dbB.notes.map (applyNoteUpdate { noteB with updatedAt := now } now) := by
  have hA2 := UpdateNote_notFound_eq dbA now noteA hA
  have hB2 := UpdateNote_found_fields dbB now noteB hB
  refine ⟨?_, ?_, ?_, hB2.2.1, hB2.1, hB2.2.2.1⟩
  · rw [hA2]
  · rw [hA2]
  · rw [hA2]

/-- C10 witness: a failing update against the empty store still mutates the
argument's update timestamp; a successful update against dbOneNote writes the
caller-side timestamp into the stored row. -/
theorem gnote_c10_witness :
    (UpdateNote emptyDB 9 updReq).note = { updReq with updatedAt := 9 } ∧
    (UpdateNote emptyDB 9 updReq).res = Except.error StoreError.notFound ∧
    (UpdateNote emptyDB 9 updReq).db = emptyDB ∧
    (UpdateNote dbOneNote 9 updReq).note = { updReq with updatedAt := 9 } ∧
    (UpdateNote dbOneNote 9 updReq).res = Except.ok () ∧
    (UpdateNote dbOneNote 9 updReq).db.notes
      = dbOneNote.notes.map (applyNoteUpdate { updReq with updatedAt := 9 } 9) :=
  gnote_c10 emptyDB dbOneNote 9 updReq updReq (by decide) (by decide)

/-- C3 counterexample: deleting note 1 of dbOneNote (one attachment at f1,
file present) produces a trace in which a physical-file removal event occurs
BEFORE the commit event — the code removes files between the note-row delete
and tx.Commit(), not after the commit — refuting the claim that removal
happens only after the delete transaction commits. -/
theorem gnote_c3_cex :
    noRemovalBeforeCommit (DeleteNote dbOneNote ["f1"] 1).trace = false ∧
    Event.commitTx ∈ (DeleteNote dbOneNote ["f1"] 1).trace ∧
    Event.removeFileEv "f1" true ∈ (DeleteNote dbOneNote ["f1"] 1).trace ∧
    (DeleteNote dbOneNote ["f1"] 1).res = Except.ok () := by decide

/-- C3 (amended): in a successful DeleteNote the physical-file removal
attempts happen after the note-row delete succeeds but BEFORE the transaction
commits (the removal events sit between the row-delete event and the commit
event); a removal failure is only logged and never escalates — the operation
returns ok and the note row stays deleted for every filesystem state. -/
theorem gnote_c3 (db : DB) (fs : FS) (id : Nat)
    (h : db.notes.countP (fun r => r.id == id) ≠ 0) :
    (DeleteNote db fs id).res = Except.ok () ∧
    (DeleteNote db fs id).db.notes = db.notes.filter (fun r => !(r.id == id)) ∧
    (DeleteNote db fs id).trace =
      [Event.beginTx, Event.selectAttachmentsEv Conn.dbConn id,
       Event.deleteNoteTagsEv Conn.txConn id,
       Event.deleteNoteRowEv Conn.txConn id
         (db.notes.countP (fun r => r.id == id))] ++
      (removeFiles fs ((selectAttachmentRows db id).map (fun a => a.filepath))).2 ++
      [Event.commitTx] := by
  rw [DeleteNote_found_eq db fs id h]
  exact ⟨rfl, rfl, rfl⟩

/-- C3 witness: deleting note 1 of dbOneNote on an empty filesystem — the
removal fails, is logged, and the structured delete still commits. -/
theorem gnote_c3_witness :
    (DeleteNote dbOneNote [] 1).res = Except.ok () ∧
    (DeleteNote dbOneNote [] 1).db.notes
      = dbOneNote.notes.filter (fun r => !(r.id == 1)) ∧
    (DeleteNote dbOneNote [] 1).trace =
      [Event.beginTx, Event.selectAttachmentsEv Conn.dbConn 1,
       Event.deleteNoteTagsEv Conn.txConn 1,
       Event.deleteNoteRowEv Conn.txConn 1
         (dbOneNote.notes.countP (fun r => r.id == 1))] ++
      (removeFiles [] ((selectAttachmentRows dbOneNote 1).map (fun a => a.filepath))).2 ++
      [Event.commitTx] :=
  gnote_c3 dbOneNote [] 1 (by decide)

/-- C4 counterexample: in the delete of note 1 of dbOneNote the attachment
enumeration statement runs on the plain database connection, not on the
transaction — GetAttachmentsByNoteID is called with s.db, so the enumeration
does NOT execute within the delete transaction as claimed. -/
theorem gnote_c4_cex :
    attachmentEnumOnTx (DeleteNote dbOneNote ["f1"] 1).trace = false ∧
    Event.selectAttachmentsEv Conn.dbConn 1 ∈ (DeleteNote dbOneNote ["f1"] 1).trace := by
  decide

/-- C4 (amended): within DeleteNote the tag-association delete and the
note-row delete execute on the transaction connection between begin and
commit, but the attachment enumeration executes on the plain database
connection (outside the transaction); and when the note-row delete affects
zero rows the operation aborts with NotFoundError, the trace ends in a
rollback with no commit, and neither the store nor the filesystem changes. -/
theorem gnote_c4 (dbA dbB : DB) (fsA fsB : FS) (idA idB : Nat)
    (hA : dbA.notes.countP (fun r => r.id == idA) ≠ 0)
    (hB : ∀ r ∈ dbB.notes, r.id ≠ idB) :
    (DeleteNote dbA fsA idA).trace =
      [Event.beginTx, Event.selectAttachmentsEv Conn.dbConn idA,
       Event.deleteNoteTagsEv Conn.txConn idA,
       Event.deleteNoteRowEv Conn.txConn idA
         (dbA.notes.countP (fun r => r.id == idA))] ++
      (removeFiles fsA ((selectAttachmentRows dbA idA).map (fun a => a.filepath))).2 ++
      [Event.commitTx] ∧
    DeleteNote dbB fsB idB =
      { res := Except.error StoreError.notFound, db := dbB, fs := fsB,
        trace := [Event.beginTx, Event.selectAttachmentsEv Conn.dbConn idB,
                  Event.deleteNoteTagsEv Conn.txConn idB,
                  Event.deleteNoteRowEv Conn.txConn idB 0, Event.rollbackTx] } := by
  constructor
  · rw [DeleteNote_found_eq dbA fsA idA hA]
  · exact DeleteNote_notFound_eq dbB fsB idB hB

/-- C4 witness: note 1 exists in dbOneNote, id 42 does not. -/
theorem gnote_c4_witness :
    (DeleteNote dbOneNote ["f1"] 1).trace =
      [Event.beginTx, Event.selectAttachmentsEv Conn.dbConn 1,
       Event.deleteNoteTagsEv Conn.txConn 1,
       Event.deleteNoteRowEv Conn.txConn 1
         (dbOneNote.notes.countP (fun r => r.id == 1))] ++
      (removeFiles ["f1"] ((selectAttachmentRows dbOneNote 1).map (fun a => a.filepath))).2 ++
      [Event.commitTx] ∧
    DeleteNote dbOneNote [] 42 =
      { res := Except.error StoreError.notFound, db := dbOneNote, fs := [],
        trace := [Event.beginTx, Event.selectAttachmentsEv Conn.dbConn 42,
                  Event.deleteNoteTagsEv Conn.txConn 42,
                  Event.deleteNoteRowEv Conn.txConn 42 0, Event.rollbackTx] } :=
  gnote_c4 dbOneNote dbOneNote ["f1"] [] 1 42 (by decide) (by decide)

/-- C6: GetAllNotes returns a permutation of all notes ordered by creation
time descending, each with its tag set populated as a non-nil slice (an empty
collection, never nil, for untagged notes) and attachments always the empty
collection; GetNoteByID on an existing note populates both the tag slice and
the attachment slice from the store. -/
theorem gnote_c6 (db : DB) :
    List.Pairwise (fun a b : Note => b.createdAt ≤ a.createdAt) (GetAllNotes db) ∧
    List.Perm ((GetAllNotes db).map Note.id) (db.notes.map NoteRow.id) ∧
    (∀ m ∈ GetAllNotes db, m.attachments = some ([] : List Attachment) ∧
      ∃ l, m.tags = some l ∧ List.Perm l (selectTagNames db m.id)) ∧
    (∀ id m, GetNoteByID db id = Except.ok m →
      m.tags = goOfList (selectTagNames db id) ∧
      m.attachments = goOfList (selectAttachmentRows db id)) := by
  refine ⟨?_, ?_, ?_, ?_⟩
  · have hs : List.Sorted rowLater (List.insertionSort rowLater db.notes) :=
      List.sorted_insertionSort rowLater db.notes
    exact List.Pairwise.map _ (fun a b hab => hab) hs
  · have hmm : (GetAllNotes db).map Note.id
        = (List.insertionSort rowLater db.notes).map NoteRow.id := by
      rw [GetAllNotes, List.map_map]
      rfl
    rw [hmm]
    exact List.Perm.map NoteRow.id (List.perm_insertionSort rowLater db.notes)
  · intro m hm
    rcases List.mem_map.mp hm with ⟨r, _, rfl⟩
    exact ⟨rfl, sortStrings (selectTagNames db r.id), rfl,
           List.perm_insertionSort strLe _⟩
  · intro id m h
    unfold GetNoteByID at h
    cases hfind : selectNoteRow db id with
    | none => rw [hfind] at h; exact absurd h (by simp)
    | some r =>
      rw [hfind] at h
      have hid : r.id = id := by
        have := List.find?_some hfind
        simpa using this
      simp only [GetAttachmentsByNoteID] at h
      injection h with hm2
      rw [← hm2, hid]
      exact ⟨rfl, rfl⟩

/-- C6 witness at the concrete store dbOneNote. -/
theorem gnote_c6_witness :
    List.Pairwise (fun a b : Note => b.createdAt ≤ a.createdAt) (GetAllNotes dbOneNote) ∧
    List.Perm ((GetAllNotes dbOneNote).map Note.id) (dbOneNote.notes.map NoteRow.id) ∧
    (∀ m ∈ GetAllNotes dbOneNote, m.attachments = some ([] : List Attachment) ∧
      ∃ l, m.tags = some l ∧ List.Perm l (selectTagNames dbOneNote m.id)) ∧
    (∀ id m, GetNoteByID dbOneNote id = Except.ok m →
      m.tags = goOfList (selectTagNames dbOneNote id) ∧
      m.attachments = goOfList (selectAttachmentRows dbOneNote id)) :=
  gnote_c6 dbOneNote

/-- A find? hit in a prefix survives appending more rows. -/
theorem find?_append_left {α : Type} {p : α → Bool} {l1 l2 : List α} {a : α}
    (h : l1.find? p = some a) : (l1 ++ l2).find? p = some a := by
  rw [List.find?_append, h]
  rfl

/-- A find? miss in a prefix defers to the appended rows. -/
theorem find?_append_none {α : Type} {p : α → Bool} {l1 l2 : List α}
    (h : l1.find? p = none) : (l1 ++ l2).find? p = l2.find? p := by
  rw [List.find?_append, h]
  rfl

/-- In a table whose ids are pairwise distinct, looking a member row up by
its own id finds exactly that row. -/
theorem tags_find_id {tags : List TagRow} (hnd : (tags.map TagRow.id).Nodup)
    {r : TagRow} (hr : r ∈ tags) :
    tags.find? (fun t => t.id == r.id) = some r := by
  cases hf : tags.find? (fun t => t.id == r.id) with
  | none => exact absurd (List.find?_eq_none.mp hf r hr) (by simp)
  | some r2 =>
    have h2 : r2 ∈ tags := List.mem_of_find?_eq_some hf
    have h3 : r2.id = r.id := by simpa using List.find?_some hf
    rw [List.inj_on_of_nodup_map hnd h2 hr h3]

/-- Anatomy of a name in the unordered tag join: it comes from an
association of the note whose (canonical) tag id resolves to a row carrying
that name, and that row is also the upsert target for the name. -/
theorem selectTagNames_mem_elim {db : DB} {n : Nat} {s : String}
    (hcanon : assocsCanon db n) (hs : s ∈ selectTagNames db n) :
    ∃ nt ∈ db.noteTags, nt.noteId = n ∧
      ∃ r2, db.tags.find? (fun t => t.id == nt.tagId) = some r2 ∧
        db.tags.find? (fun t => t.name == s) = some r2 ∧
        r2.name = s ∧ r2.id = nt.tagId := by
  rcases List.mem_filterMap.mp hs with ⟨nt, hntf, hname⟩
  rcases List.mem_filter.mp hntf with ⟨hntmem, hcond⟩
  have hn : nt.noteId = n := by simpa using hcond
  rcases hcanon nt hntmem hn with ⟨r2, hid, hnm⟩
  have hr2name : r2.name = s := by
    rw [tagNameOfId, hid] at hname
    simpa using hname
  have hr2id : r2.id = nt.tagId := by simpa using List.find?_some hid
  exact ⟨nt, hntmem, hn, r2, hid, hr2name ▸ hnm, hr2name, hr2id⟩

/-- An association of the note whose tag id resolves to a name puts that
name into the join result. -/
theorem selectTagNames_mem_intro {db : DB} {n : Nat} {s : String}
    {nt : NoteTagRow} (hntmem : nt ∈ db.noteTags) (hn : nt.noteId = n)
    (hname : tagNameOfId db nt.tagId = some s) :
    s ∈ selectTagNames db n :=
  List.mem_filterMap.mpr
    ⟨nt, List.mem_filter.mpr ⟨hntmem, by simp [hn]⟩, hname⟩

/-- Master lemma on the upsert-and-link loop: running it for tag list T turns
the note's joined tag-name list A into A ++ dedupNew A T (each not-yet-linked
name is linked exactly once, in first-occurrence order), while preserving the
tag-table health invariants, the canonicity of the note's associations, and
the other tables. -/
theorem syncTags_spec (T : List String) : ∀ (db : DB) (n : Nat),
    (∀ t ∈ db.tags, t.id < db.nextTagId) →
    ((db.tags.map TagRow.id).Nodup) →
    assocsCanon db n →
    selectTagNames (syncTags db n T).1 n
      = selectTagNames db n ++ dedupNew (selectTagNames db n) T ∧
    (∀ t ∈ (syncTags db n T).1.tags, t.id < (syncTags db n T).1.nextTagId) ∧
    (((syncTags db n T).1.tags.map TagRow.id).Nodup) ∧
    assocsCanon (syncTags db n T).1 n := by
  induction T with
  | nil =>
    intro db n hb hnd hcanon
    exact ⟨by simp [syncTags, dedupNew], hb, hnd, hcanon⟩
  | cons s rest ih =>
    intro db n hb hnd hcanon
    have hstep : (syncTags db n (s :: rest)).1
        = (syncTags (insertNoteTag (upsertTag db s).2 n (upsertTag db s).1) n rest).1 := rfl
    cases hfind : db.tags.find? (fun t => t.name == s) with
    | some r =>
      have hup : upsertTag db s = (r.id, db) := by simp [upsertTag, hfind]
      have hrname : r.name = s := by simpa using List.find?_some hfind
      have hrmem : r ∈ db.tags := List.mem_of_find?_eq_some hfind
      have hnamelookup : tagNameOfId db r.id = some s := by
        rw [tagNameOfId, tags_find_id hnd hrmem]
        simp [hrname]
      cases hany : db.noteTags.any (fun nt => nt.noteId == n && nt.tagId == r.id) with
      | true =>
        have hins : insertNoteTag db n r.id = db := by simp [insertNoteTag, hany]
        have hsA : s ∈ selectTagNames db n := by
          rcases List.any_eq_true.mp hany with ⟨nt, hntmem, hcond⟩
          have hcc : nt.noteId = n ∧ nt.tagId = r.id := by simpa using hcond
          refine selectTagNames_mem_intro hntmem hcc.1 ?_
          rw [hcc.2]
          exact hnamelookup
        have hded : dedupNew (selectTagNames db n) (s :: rest)
            = dedupNew (selectTagNames db n) rest := by
          rw [dedupNew, if_pos hsA]
        rw [hstep, hup, hins, hded]
        exact ih db n hb hnd hcanon
      | false =>
        have hins : insertNoteTag db n r.id
            = { db with noteTags := db.noteTags ++ [{ noteId := n, tagId := r.id }] } := by
          simp [insertNoteTag, hany]
        have hsA : s ∉ selectTagNames db n := by
          intro hs
          rcases selectTagNames_mem_elim hcanon hs with
            ⟨nt, hntmem, hn, r2, _, hnm2, _, hr2id⟩
          have hreq : r2 = r := by
            rw [hfind] at hnm2
            injection hnm2 with h5
            exact h5.symm
          have : db.noteTags.any (fun nt => nt.noteId == n && nt.tagId == r.id) = true :=
            List.any_eq_true.mpr ⟨nt, hntmem, by simp [hn, ← hr2id, hreq]⟩
          rw [hany] at this
          exact Bool.false_ne_true this
        set db1 : DB :=
          { db with noteTags := db.noteTags ++ [{ noteId := n, tagId := r.id }] } with hdb1
        have hA1 : selectTagNames db1 n = selectTagNames db n ++ [s] := by
          have hnt1 : db1.noteTags
              = db.noteTags ++ [{ noteId := n, tagId := r.id }] := rfl
          rw [selectTagNames, hnt1, List.filter_append, List.filterMap_append]
          have h1 : List.filter (fun nt => nt.noteId == n)
              ([{ noteId := n, tagId := r.id }] : List NoteTagRow)
              = [{ noteId := n, tagId := r.id }] := by simp
          rw [h1]
          have h2 : List.filterMap (fun nt => tagNameOfId db1 nt.tagId)
              ([{ noteId := n, tagId := r.id }] : List NoteTagRow) = [s] := by
            simp only [List.filterMap_cons, List.filterMap_nil]
            have hx : tagNameOfId db1 r.id = some s := hnamelookup
            rw [hx]
          rw [h2]
          have h3 : List.filterMap (fun nt => tagNameOfId db1 nt.tagId)
              (List.filter (fun nt => nt.noteId == n) db.noteTags)
              = selectTagNames db n := rfl
          rw [h3]
        have hcanon1 : assocsCanon db1 n := by
          intro nt hntmem hn
          rcases List.mem_append.mp hntmem with hml | hmr
          · exact hcanon nt hml hn
          · have : nt = { noteId := n, tagId := r.id } := List.mem_singleton.mp hmr
            rw [this]
            exact ⟨r, tags_find_id hnd hrmem, by rw [hrname]; exact hfind⟩
        have hded : dedupNew (selectTagNames db n) (s :: rest)
            = s :: dedupNew (selectTagNames db n ++ [s]) rest := by
          rw [dedupNew, if_neg hsA]
        rcases ih db1 n hb hnd hcanon1 with ⟨g1, g2, g3, g4⟩
        rw [hA1] at g1
        refine ⟨?_, ?_, ?_, ?_⟩
        · rw [hstep, hup, hins, g1, hded]
          rw [List.append_assoc]
          rfl
        · rw [hstep, hup, hins]; exact g2
        · rw [hstep, hup, hins]; exact g3
        · rw [hstep, hup, hins]; exact g4
    | none =>
      have hup : upsertTag db s
          = (db.nextTagId,
             { db with tags := db.tags ++ [{ id := db.nextTagId, name := s }],
                       nextTagId := db.nextTagId + 1 }) := by
        simp [upsertTag, hfind]
      have hfresh : ∀ t ∈ db.tags, t.id ≠ db.nextTagId :=
        fun t ht => Nat.ne_of_lt (hb t ht)
      set row : TagRow := { id := db.nextTagId, name := s } with hrow
      set dbT : DB :=
        { db with tags := db.tags ++ [row], nextTagId := db.nextTagId + 1 } with hdbT
      have hprefnone : db.tags.find? (fun t => t.id == db.nextTagId) = none :=
        List.find?_eq_none.mpr (fun t ht => by simp [hfresh t ht])
      have htagsfind : dbT.tags.find? (fun t => t.id == db.nextTagId) = some row := by
        show (db.tags ++ [row]).find? (fun t => t.id == db.nextTagId) = some row
        rw [find?_append_none hprefnone]
        simp [hrow]
      have hnamefind : dbT.tags.find? (fun t => t.name == s) = some row := by
        show (db.tags ++ [row]).find? (fun t => t.name == s) = some row
        rw [find?_append_none hfind]
        simp [hrow]
      have hpres : ∀ j, canonTagId db j → canonTagId dbT j := by
        rintro j ⟨r2, h1, h2⟩
        exact ⟨r2, find?_append_left h1, find?_append_left h2⟩
      have hAeq : selectTagNames dbT n = selectTagNames db n := by
        have hnt2 : dbT.noteTags = db.noteTags := rfl
        rw [selectTagNames, hnt2, selectTagNames]
        refine List.filterMap_congr (fun nt hnt => ?_)
        rcases List.mem_filter.mp hnt with ⟨hntmem, hcond⟩
        rcases hcanon nt hntmem (by simpa using hcond) with ⟨r2, h1, _⟩
        have hfT : dbT.tags.find? (fun t => t.id == nt.tagId) = some r2 := by
          show (db.tags ++ [row]).find? (fun t => t.id == nt.tagId) = some r2
          exact find?_append_left h1
        rw [tagNameOfId, tagNameOfId, hfT, h1]
      have hany : dbT.noteTags.any
          (fun nt => nt.noteId == n && nt.tagId == db.nextTagId) = false := by
        rw [Bool.eq_false_iff]
        intro hc
        rcases List.any_eq_true.mp hc with ⟨nt, hntmem, hcond⟩
        have hcc : nt.noteId = n ∧ nt.tagId = db.nextTagId := by simpa using hcond
        rcases hcanon nt hntmem hcc.1 with ⟨r2, h1, _⟩
        have hr2mem : r2 ∈ db.tags := List.mem_of_find?_eq_some h1
        have hr2id : r2.id = nt.tagId := by simpa using List.find?_some h1
        exact hfresh r2 hr2mem (by rw [hr2id, hcc.2])
      have hins : insertNoteTag dbT n db.nextTagId
          = { dbT with noteTags := dbT.noteTags ++ [{ noteId := n, tagId := db.nextTagId }] } := by
        rw [insertNoteTag, hany]
        simp
      set db2 : DB :=
        { dbT with noteTags := dbT.noteTags ++ [{ noteId := n, tagId := db.nextTagId }] }
        with hdb2
      have hA2 : selectTagNames db2 n = selectTagNames db n ++ [s] := by
        have hnt3 : db2.noteTags
            = db.noteTags ++ [{ noteId := n, tagId := db.nextTagId }] := rfl
        rw [selectTagNames, hnt3, List.filter_append, List.filterMap_append]
        have h1 : List.filter (fun nt => nt.noteId == n)
            ([{ noteId := n, tagId := db.nextTagId }] : List NoteTagRow)
            = [{ noteId := n, tagId := db.nextTagId }] := by simp
        rw [h1]
        have h2 : List.filterMap (fun nt => tagNameOfId db2 nt.tagId)
            ([{ noteId := n, tagId := db.nextTagId }] : List NoteTagRow) = [s] := by
          simp only [List.filterMap_cons, List.filterMap_nil]
          have hx : tagNameOfId db2 db.nextTagId = some s := by
            have hfT2 : db2.tags.find? (fun t => t.id == db.nextTagId) = some row :=
              htagsfind
            rw [tagNameOfId, hfT2]
            simp [hrow]
          rw [hx]
        rw [h2]
        have h3 : List.filterMap (fun nt => tagNameOfId db2 nt.tagId)
            (List.filter (fun nt => nt.noteId == n) db.noteTags)
            = selectTagNames dbT n := rfl
        rw [h3, hAeq]
      have hsA : s ∉ selectTagNames db n := by
        intro hs
        rcases selectTagNames_mem_elim hcanon hs with ⟨_, _, _, r2, _, hnm2, _, _⟩
        rw [hfind] at hnm2
        exact Option.noConfusion hnm2
      have hb2 : ∀ t ∈ db2.tags, t.id < db2.nextTagId := by
        intro t ht
        rcases List.mem_append.mp ht with hml | hmr
        · exact Nat.lt_trans (hb t hml) (Nat.lt_succ_self _)
        · rw [List.mem_singleton.mp hmr]
          exact Nat.lt_succ_self _
      have hnd2 : (db2.tags.map TagRow.id).Nodup := by
        show ((db.tags ++ [row]).map TagRow.id).Nodup
        rw [List.map_append]
        rw [List.nodup_append]
        refine ⟨hnd, by simp, ?_⟩
        intro x hx hx2
        rcases List.mem_map.mp hx with ⟨t, ht, rfl⟩
        have : t.id = row.id := by simpa using hx2
        exact hfresh t ht (by simpa [hrow] using this)
      have hcanon2 : assocsCanon db2 n := by
        intro nt hntmem hn
        rcases List.mem_append.mp hntmem with hml | hmr
        · exact hpres nt.tagId (hcanon nt hml hn)
        · rw [List.mem_singleton.mp hmr]
          exact ⟨row, htagsfind, by rw [show row.name = s from rfl]; exact hnamefind⟩
      have hded : dedupNew (selectTagNames db n) (s :: rest)
          = s :: dedupNew (selectTagNames db n ++ [s]) rest := by
        rw [dedupNew, if_neg hsA]
      rcases ih db2 n hb2 hnd2 hcanon2 with ⟨g1, g2, g3, g4⟩
      rw [hA2] at g1
      refine ⟨?_, ?_, ?_, ?_⟩
      · rw [hstep, hup, hins, g1, hded]
        rw [List.append_assoc]
        rfl
      · rw [hstep, hup, hins]; exact g2
      · rw [hstep, hup, hins]; exact g3
      · rw [hstep, hup, hins]; exact g4

/-- C2: updating an existing note with tag list T2 leaves exactly the tags of
T2 associated with it — the post-update joined tag names are T2 deduplicated
(first occurrences), and a name is associated afterwards if and only if it
occurs in T2, so nothing of the previous tag set survives unless requested
again; the relink runs through the same upsert-by-name loop as create. -/
theorem gnote_c2 (db : DB) (now : Nat) (note : Note)
    (h2 : ∀ t ∈ db.tags, t.id < db.nextTagId)
    (h3 : (db.tags.map TagRow.id).Nodup)
    (hex : db.notes.countP (fun r => r.id == note.id) ≠ 0) :
    (UpdateNote db now note).res = Except.ok () ∧
    selectTagNames (UpdateNote db now note).db note.id
      = dedupFirst (goToList note.tags) ∧
    (∀ s, s ∈ selectTagNames (UpdateNote db now note).db note.id
       ↔ s ∈ goToList note.tags) := by
  rcases UpdateNote_found_fields db now note hex with ⟨hres, _, _, hdb⟩
  set dbU : DB := (updateNoteRow db { note with updatedAt := now } now).2 with hdbU
  set db1 : DB := deleteNoteTagLinks dbU note.id with hdb1
  have hb1 : ∀ t ∈ db1.tags, t.id < db1.nextTagId := h2
  have hnd1 : (db1.tags.map TagRow.id).Nodup := h3
  have hcanon1 : assocsCanon db1 note.id := by
    intro nt hm hn
    have hm2 : nt ∈ dbU.noteTags.filter (fun x => !(x.noteId == note.id)) := hm
    rcases List.mem_filter.mp hm2 with ⟨_, hcond⟩
    rw [hn] at hcond
    simp at hcond
  have hA1 : selectTagNames db1 note.id = [] := by
    have hnt : db1.noteTags = dbU.noteTags.filter (fun x => !(x.noteId == note.id)) := rfl
    rw [selectTagNames, hnt, List.filter_filter]
    have hff : dbU.noteTags.filter
        (fun a => (a.noteId == note.id) && !(a.noteId == note.id)) = [] := by
      refine List.filter_eq_nil_iff.mpr (fun a _ => ?_)
      simp
    rw [hff]
    rfl
  rcases syncTags_spec (goToList note.tags) db1 note.id hb1 hnd1 hcanon1 with
    ⟨g1, _, _, _⟩
  rw [hA1, List.nil_append] at g1
  refine ⟨hres, ?_, ?_⟩
  · rw [hdb, g1]
    rfl
  · intro s
    rw [hdb, g1]
    exact mem_dedupFirst s (goToList note.tags)

/-- C2 witness: retagging note 1 of dbOneNote (currently tagged a) with the
list urgent leaves exactly urgent associated. -/
theorem gnote_c2_witness :
    (UpdateNote dbOneNote 9 updReq).res = Except.ok () ∧
    selectTagNames (UpdateNote dbOneNote 9 updReq).db updReq.id
      = dedupFirst (goToList updReq.tags) ∧
    (∀ s, s ∈ selectTagNames (UpdateNote dbOneNote 9 updReq).db updReq.id
       ↔ s ∈ goToList updReq.tags) :=
  gnote_c2 dbOneNote 9 updReq (by decide) (by decide) (by decide)

/-- C1 counterexample: creating a note with tags b, a (in that order) in the
empty store and reading it back by its assigned id yields the tag slice
b, a — the read-back join has no ORDER BY — while sorted(dedup(T)) is a, b;
the two differ, refuting the claimed alphabetical order. -/
theorem gnote_c1_cex :
    (CreateNote emptyDB 5 exNoteBA).1.id = 1 ∧
    tagsOfRead (GetNoteByID (CreateNote emptyDB 5 exNoteBA).2 1)
      = some ["b", "a"] ∧
    specSortedDedup ["b", "a"] = ["a", "b"] ∧
    tagsOfRead (GetNoteByID (CreateNote emptyDB 5 exNoteBA).2 1)
      ≠ some (specSortedDedup ["b", "a"]) := by decide

/-- C1 (amended): reading back a freshly created note yields a tag slice
holding the distinct tags of T exactly once each — equal to T deduplicated in
first-occurrence order under the model's insertion-order row ordering, hence
set-equal to sorted(dedup(T)) — but not necessarily alphabetically sorted,
since the tag query of GetNoteByID has no ORDER BY. -/
theorem gnote_c1 (db : DB) (now : Nat) (note : Note)
    (h1 : ∀ r ∈ db.notes, r.id < db.nextNoteId)
    (h2 : ∀ t ∈ db.tags, t.id < db.nextTagId)
    (h3 : (db.tags.map TagRow.id).Nodup)
    (h4 : ∀ nt ∈ db.noteTags, nt.noteId < db.nextNoteId) :
    ∃ m, GetNoteByID (CreateNote db now note).2 (CreateNote db now note).1.id
        = Except.ok m ∧
      m.tags = goOfList (dedupFirst (goToList note.tags)) ∧
      (goToList m.tags).Nodup ∧
      (∀ s, s ∈ goToList m.tags ↔ s ∈ goToList note.tags) := by
  set rowN : NoteRow :=
    { id := db.nextNoteId, title := note.title, content := note.content,
      createdAt := now, updatedAt := now, reminderAt := note.reminderAt } with hrowN
  set dbA : DB :=
    { db with notes := db.notes ++ [rowN], nextNoteId := db.nextNoteId + 1 }
    with hdbA
  have hCr2 : (CreateNote db now note).2
      = (syncTags dbA db.nextNoteId (goToList note.tags)).1 := rfl
  have hCr1 : (CreateNote db now note).1.id = db.nextNoteId := rfl
  have hbA : ∀ t ∈ dbA.tags, t.id < dbA.nextTagId := h2
  have hndA : (dbA.tags.map TagRow.id).Nodup := h3
  have hcanonA : assocsCanon dbA db.nextNoteId := by
    intro nt hm hn
    exact absurd hn (Nat.ne_of_lt (h4 nt hm))
  have hA0 : selectTagNames dbA db.nextNoteId = [] := by
    have hf : dbA.noteTags.filter (fun nt => nt.noteId == db.nextNoteId) = [] := by
      refine List.filter_eq_nil_iff.mpr (fun nt hm => ?_)
      simp [Nat.ne_of_lt (h4 nt hm)]
    rw [selectTagNames, hf]
    rfl
  rcases syncTags_spec (goToList note.tags) dbA db.nextNoteId hbA hndA hcanonA with
    ⟨g1, _, _, _⟩
  rw [hA0, List.nil_append] at g1
  have hnotesF : (syncTags dbA db.nextNoteId (goToList note.tags)).1.notes
      = db.notes ++ [rowN] := by
    rw [(syncTags_frame _ _ _).1]
  have hfindrow : selectNoteRow (syncTags dbA db.nextNoteId (goToList note.tags)).1
      db.nextNoteId = some rowN := by
    rw [selectNoteRow, hnotesF]
    have hpre : db.notes.find? (fun r => r.id == db.nextNoteId) = none :=
      List.find?_eq_none.mpr (fun r hr => by simp [Nat.ne_of_lt (h1 r hr)])
    rw [find?_append_none hpre]
    simp [hrowN]
  have hget : GetNoteByID (CreateNote db now note).2 (CreateNote db now note).1.id
      = Except.ok
        { id := rowN.id, title := rowN.title, content := rowN.content,
          createdAt := rowN.createdAt, updatedAt := rowN.updatedAt,
          reminderAt := rowN.reminderAt,
          tags := goOfList (selectTagNames
            (syncTags dbA db.nextNoteId (goToList note.tags)).1 rowN.id),
          attachments := goOfList (selectAttachmentRows
            (syncTags dbA db.nextNoteId (goToList note.tags)).1 rowN.id) } := by
    rw [hCr2, hCr1, GetNoteByID, hfindrow]
    simp only [GetAttachmentsByNoteID]
  have hid : rowN.id = db.nextNoteId := rfl
  have htags : selectTagNames (syncTags dbA db.nextNoteId (goToList note.tags)).1 rowN.id
      = dedupFirst (goToList note.tags) := by
    rw [hid, g1]
    rfl
  refine ⟨_, hget, ?_, ?_, ?_⟩
  · show goOfList (selectTagNames
        (syncTags dbA db.nextNoteId (goToList note.tags)).1 rowN.id)
      = goOfList (dedupFirst (goToList note.tags))
    rw [htags]
  · show (goToList (goOfList (selectTagNames
        (syncTags dbA db.nextNoteId (goToList note.tags)).1 rowN.id))).Nodup
    rw [htags, goToList_goOfList]
    exact dedupNew_nodup (goToList note.tags) []
  · intro s
    show s ∈ goToList (goOfList (selectTagNames
        (syncTags dbA db.nextNoteId (goToList note.tags)).1 rowN.id))
      ↔ s ∈ goToList note.tags
    rw [htags, goToList_goOfList]
    exact mem_dedupFirst s (goToList note.tags)

/-- C1 witness: creating the sample note with tags b, a in the empty store
and reading it back yields the deduplicated tag set b, a. -/
theorem gnote_c1_witness :
    ∃ m, GetNoteByID (CreateNote emptyDB 5 exNoteBA).2
        (CreateNote emptyDB 5 exNoteBA).1.id = Except.ok m ∧
      m.tags = goOfList (dedupFirst (goToList exNoteBA.tags)) ∧
      (goToList m.tags).Nodup ∧
      (∀ s, s ∈ goToList m.tags ↔ s ∈ goToList exNoteBA.tags) :=
  gnote_c1 emptyDB 5 exNoteBA (by decide) (by decide) (by decide) (by decide)
